import Mathlib

/-!
# waveformgen: a shallow embedding of `waveformgen.c`

The development follows `src/waveformgen/waveformgen.c`:

* the integer set-up of `wfg_generateImage` (lines 419-424),
* the process-wide capture state (`buffer`, `jsonFileNameTmpl`, `flag`) and
  the diagnostic handler `log_callback` (lines 394-407 and 526-546),
* the packet loop, the two flush steps and the exit status of
  `wfg_generateImage` (lines 431-524), driven by a script of the results the
  media library hands back.

C integers are mathematical integers with explicit wrap-around where a value is
stored in a narrower type (`int` has 32 bits, `long` and `int64_t` have 64);
text is a list of characters. Calls into libavutil, libavcodec, libavformat,
libavfilter and libc are modelled by their documented contract; what they
return during a run is part of the input of the model.
-/

namespace Waveformgen

deriving instance DecidableEq for Except

/-- Text of a C string (without the terminating NUL). -/
abbrev Text := List Char

/-- The constants `width`, `widthSmall` and `height`. They are declared in
`waveformgen.h`, which is not among the sources, so they are parameters of the
model. -/
structure Config where
  width : Nat
  widthSmall : Nat
  height : Nat
deriving DecidableEq, Repr

/-- Ways in which an execution leaves defined C behaviour. -/
inductive Fault where
  | divByZero
  | signedOverflow
  | bufferOverflow
  | badFormat
deriving DecidableEq, Repr

/-! ## Integer set-up of `wfg_generateImage` -/

/-- `AV_TIME_BASE` of libavutil: the container duration is in microseconds. -/
def AV_TIME_BASE : Int := 1000000

/-- Storing a wider integer into an `int` (two's complement, 32 bits). -/
def toInt32 (x : Int) : Int := (x + 2 ^ 31) % 2 ^ 32 - 2 ^ 31

/-- Whether a value is representable as `int64_t`. -/
def fitsInt64 (x : Int) : Bool := decide (-(2 ^ 63) ≤ x) && decide (x < 2 ^ 63)

/-- C division `a / b` on `long`: truncation toward zero, undefined for `b = 0`. -/
def cdiv (a b : Int) : Except Fault Int :=
  if b = 0 then .error .divByZero else .ok (Int.tdiv a b)

/-- Line 419: `duration = ifmt_ctx->duration/1000;` with `int duration`. -/
def durationMs (ctxDuration : Int) : Int :=
  toInt32 (Int.tdiv ctxDuration 1000)

/-- Line 422: `samples = ifmt_ctx->duration*sampleRate/AV_TIME_BASE;`
(`int64_t * int`, then division, stored in `long samples`). -/
def totalSamples (ctxDuration sampleRate : Int) : Except Fault Int :=
  if fitsInt64 (ctxDuration * sampleRate) then
    .ok (Int.tdiv (ctxDuration * sampleRate) AV_TIME_BASE)
  else .error .signedOverflow

/-- Lines 423 and 424: `samplesPerLine = samples/width;` and
`samplesPerSmallLine = samples/widthSmall;`, both stored in an `int`. -/
def samplesPerColumn (samples : Int) (w : Nat) : Except Fault Int :=
  match cdiv samples (w : Int) with
  | .ok q => .ok (toInt32 q)
  | .error f => .error f

/-- The six integers line 426 prints into `filter_descr`
(`"wf=n=%d:w=%d:h=%d,wf=n=%d:w=%d:h=%d"`), in argument order: the small stage
comes first in the chain, the full-width stage second. -/
structure FilterDescr where
  smallN : Int
  smallW : Nat
  smallH : Nat
  largeN : Int
  largeW : Nat
  largeH : Nat
deriving DecidableEq, Repr

/-- What `%d` prints for an `int`. -/
def fmtInt (n : Int) : Text :=
  if n < 0 then '-' :: Nat.toDigits 10 n.natAbs else Nat.toDigits 10 n.toNat

/-- Lines 426-427: the text `sprintf` writes for
`"wf=n=%d:w=%d:h=%d,wf=n=%d:w=%d:h=%d"`. -/
def filterDescrText (fd : FilterDescr) : Text :=
  "wf=n=".toList ++ fmtInt fd.smallN ++ ":w=".toList ++ Nat.toDigits 10 fd.smallW
    ++ ":h=".toList ++ Nat.toDigits 10 fd.smallH
    ++ ",wf=n=".toList ++ fmtInt fd.largeN ++ ":w=".toList ++ Nat.toDigits 10 fd.largeW
    ++ ":h=".toList ++ Nat.toDigits 10 fd.largeH

/-- Lines 423-427: the per-column sample counts and the filter description,
printed into `char filter_descr[48]`: the text and its NUL must fit. -/
def filterDescr (cfg : Config) (samples : Int) : Except Fault FilterDescr :=
  match samplesPerColumn samples cfg.width with
  | .error f => .error f
  | .ok samplesPerLine =>
    match samplesPerColumn samples cfg.widthSmall with
    | .error f => .error f
    | .ok samplesPerSmallLine =>
      if (filterDescrText
            { smallN := samplesPerSmallLine, smallW := cfg.widthSmall, smallH := cfg.height,
              largeN := samplesPerLine, largeW := cfg.width, largeH := cfg.height }).length + 1
          ≤ 48 then
        .ok { smallN := samplesPerSmallLine, smallW := cfg.widthSmall, smallH := cfg.height,
              largeN := samplesPerLine, largeW := cfg.width, largeH := cfg.height }
      else .error .bufferOverflow

/-! ## The capture state and the diagnostic handler -/

/-- The `AVBPrint` of libavutil as the program observes it: the stored text
`str` (what `buffer->str` reads), the running length `len`, which keeps
counting when text is cut, and the limit `size_max` (the final NUL included). -/
structure AVBPrint where
  str : Text
  len : Nat
  size_max : Nat
deriving DecidableEq, Repr

/-- Bytes of automatic storage inside an `AVBPrint` (a 1024-byte structure
whose internal buffer starts after one pointer and three `unsigned`). -/
def size_auto : Nat := 1004

/-- The libavutil `av_bprint_init(buf, size_init, size_max)`: an empty buffer;
a `size_max` of 1 stands for the automatic storage. The program always passes
`size_init = size_max`, so the storage has its final size from the start. -/
def av_bprint_init (_size_init size_max : Nat) : AVBPrint :=
  { str := [], len := 0, size_max := if size_max = 1 then size_auto else size_max }

/-- The libavutil `av_vbprintf(buf, fmt, vl)`, with `p` the text `fmt` and `vl`
format to. By the contract in `bprint.h` the text is appended, the buffer is
reallocated as needed up to `size_max` only, the stored string is cut at
`size_max - 1` characters, and the length is still updated. -/
def av_vbprintf (buf : AVBPrint) (p : Text) : AVBPrint :=
  { buf with str := (buf.str ++ p).take (buf.size_max - 1), len := buf.len + p.length }

/-- The globals `buffer`, `jsonFileNameTmpl` (28 bytes) and `flag`. -/
structure Globals where
  buffer : AVBPrint
  jsonFileNameTmpl : Text
  flag : Int
deriving DecidableEq, Repr

/-- Formatting with at most one `char *` argument: `%s` prints the argument,
`%%` prints a percent sign, any other byte is copied. `pending` records that
the previous byte opened a directive. Any other directive, or a `%s` with no
argument left, reads an argument that was never passed. -/
def formatGo (pending : Bool) (arg : Option Text) : Text → Except Fault Text
  | [] => if pending then .error .badFormat else .ok []
  | c :: rest =>
    if pending then
      if c = '%' then
        match formatGo false arg rest with
        | .ok out => .ok ('%' :: out)
        | .error f => .error f
      else if c = 's' then
        match arg with
        | some a =>
          match formatGo false none rest with
          | .ok out => .ok (a ++ out)
          | .error f => .error f
        | none => .error .badFormat
      else .error .badFormat
    else if c = '%' then formatGo true arg rest
    else
      match formatGo false arg rest with
      | .ok out => .ok (c :: out)
      | .error f => .error f

/-- The libc `sprintf(dst, fmt, arg)` into a destination of `cap` bytes: the
formatted text and its NUL must fit. -/
def sprintf1 (cap : Nat) (fmt arg : Text) : Except Fault Text :=
  match formatGo false (some arg) fmt with
  | .error f => .error f
  | .ok out => if out.length + 1 ≤ cap then .ok out else .error .bufferOverflow

/-- What the handler and `wfg_generateImage` do to the outside and to the
buffer: a file opened with mode `"w"` and given a new content, and a call of
`av_bprint_init`. -/
inductive Event where
  | fileWrite (name content : Text)
  | bufferInit (size_init size_max : Nat)
deriving DecidableEq, Repr

/-- Lines 537-538: the text `fprintf` writes,
`"\x7b\"width\":%d,\"height\":%d,\"samples\":[%s]\x7d"`. -/
def datasetText (w h : Nat) (samples : Text) : Text :=
  "\x7b\"width\":".toList ++ Nat.toDigits 10 w ++ ",\"height\":".toList ++ Nat.toDigits 10 h
    ++ ",\"samples\":[".toList ++ samples ++ "]\x7d".toList

/-- Lines 528-546: `log_callback`, with `payload` the text that `fmt` and `vl`
format to. The mutex is held for the whole body; calls are handled one at a
time. -/
def log_callback (cfg : Config) (g : Globals) (level : Int) (payload : Text) :
    Except Fault (Globals × List Event) :=
  if level = 49 then
    let buffer := av_vbprintf g.buffer payload
    match sprintf1 32 g.jsonFileNameTmpl (if g.flag ≠ 0 then "m".toList else "s".toList) with
    | .error f => .error f
    | .ok jsonFileName =>
      let written := Event.fileWrite jsonFileName
        (datasetText (if g.flag ≠ 0 then cfg.width else cfg.widthSmall) cfg.height buffer.str)
      if g.flag ≠ 0 then
        .ok ({ g with buffer := av_bprint_init (cfg.widthSmall * 8 + 1) (cfg.widthSmall * 8 + 1),
                      flag := 0 },
             [written, Event.bufferInit (cfg.widthSmall * 8 + 1) (cfg.widthSmall * 8 + 1)])
      else .ok ({ g with buffer := buffer }, [written])
  else .ok (g, [])

/-- Lines 400-407 and 526: the capture state `wfg_generateImage` sets up before
any message arrives; `flag` has its static initial value 1. -/
def initialGlobals (cfg : Config) (infile : Text) : Except Fault Globals :=
  match sprintf1 28 "%s_%%s.json".toList infile with
  | .error f => .error f
  | .ok tmpl =>
    .ok { buffer := av_bprint_init (cfg.width * 8 + 1) (cfg.width * 8 + 1),
          jsonFileNameTmpl := tmpl, flag := 1 }

/-- A diagnostic message: its level and its formatted text. -/
structure Msg where
  level : Int
  text : Text
deriving DecidableEq, Repr

/-- One handled message: the globals before and after, and what was done. -/
structure Step where
  before : Globals
  after : Globals
  events : List Event
deriving DecidableEq, Repr

/-- The handler run on a sequence of messages, one after the other. -/
def runLog (cfg : Config) : Globals → List Msg → Except Fault (List Step)
  | _, [] => .ok []
  | g, m :: ms =>
    match log_callback cfg g m.level m.text with
    | .error f => .error f
    | .ok (g1, ev) =>
      match runLog cfg g1 ms with
      | .error f => .error f
      | .ok steps => .ok ({ before := g, after := g1, events := ev } :: steps)

/-- All events of a run, in order. -/
def stepsEvents : List Step → List Event
  | [] => []
  | s :: rest => s.events ++ stepsEvents rest

/-- The file writes among the events, as (name, content), in order. -/
def fileWrites : List Event → List (Text × Text)
  | [] => []
  | Event.fileWrite n c :: rest => (n, c) :: fileWrites rest
  | Event.bufferInit _ _ :: rest => fileWrites rest

/-- The number of `av_bprint_init` calls among the events. -/
def bufferInits : List Event → Nat
  | [] => 0
  | Event.fileWrite _ _ :: rest => bufferInits rest
  | Event.bufferInit _ _ :: rest => bufferInits rest + 1

/-- Content of file `name` after the writes: that of the last write to it. -/
def fileContent (name : Text) : List (Text × Text) → Option Text
  | [] => none
  | (n, c) :: rest =>
    match fileContent name rest with
    | some c2 => some c2
    | none => if n = name then some c else none

/-- Position of the last write to file `name` among the writes, if any. -/
def lastWriteIndex (name : Text) : List (Text × Text) → Option Nat
  | [] => none
  | (n, _) :: rest =>
    match lastWriteIndex name rest with
    | some i => some (i + 1)
    | none => if n = name then some 0 else none

/-- Whether the tier flag changed value in a step. -/
def Step.flipped (s : Step) : Bool := decide (s.before.flag ≠ s.after.flag)

/-- Whether the buffer was re-initialised in a step. -/
def Step.didReset (s : Step) : Bool := decide (0 < bufferInits s.events)

/-- Name of the path without its directory components, as the specification
uses `basename(input)`: the text after the last `/`. -/
def specBasename : Text → Text
  | [] => []
  | c :: rest =>
    if '/' ∈ rest then specBasename rest
    else if c = '/' then rest
    else c :: rest

/-! ## The packet loop, the flush steps and the exit status -/

/-- `AVERROR_EOF` of libavutil, the negated tag `'E','O','F',' '`. -/
def AVERROR_EOF : Int := -541478725

/-- `AVERROR(EAGAIN)`. -/
def AVERROR_EAGAIN : Int := -11

/-- `AVERROR(ENOMEM)`. -/
def AVERROR_ENOMEM : Int := -12

/-- What the library hands back in one call of `encode_write_frame`: the
result of `avcodec_encode_audio2`, the `*got_frame` it sets, and the result of
`av_interleaved_write_frame`. -/
structure EncodeCall where
  encodeRet : Int
  got_frame : Int
  writeRet : Int
deriving DecidableEq, Repr

/-- Lines 299-328: `encode_write_frame`. -/
def encode_write_frame (c : EncodeCall) : Int :=
  if c.encodeRet < 0 then c.encodeRet
  else if c.got_frame = 0 then 0
  else c.writeRet

/-- One turn of the pull loop of `filter_encode_write_frame`: whether
`av_frame_alloc` gave a frame, the result of `av_buffersink_get_frame`, and the
encode call made on the pulled frame. -/
structure PullTurn where
  frameAllocated : Bool
  sinkRet : Int
  encode : EncodeCall
deriving DecidableEq, Repr

/-- Lines 344-368: the `while (1)` of `filter_encode_write_frame`. When the
scripted turns are used up the sink has no further frame and reports
`AVERROR(EAGAIN)`, which the loop rewrites to 0. -/
def pullLoop : List PullTurn → Int
  | [] => 0
  | t :: rest =>
    if !t.frameAllocated then AVERROR_ENOMEM
    else if t.sinkRet < 0 then
      (if t.sinkRet = AVERROR_EAGAIN ∨ t.sinkRet = AVERROR_EOF then 0 else t.sinkRet)
    else if encode_write_frame t.encode < 0 then encode_write_frame t.encode
    else pullLoop rest

/-- What the library hands back in one call of `filter_encode_write_frame`:
the result of `av_buffersrc_add_frame_flags` and the turns of the pull loop. -/
structure FilterCall where
  addRet : Int
  pulls : List PullTurn
deriving DecidableEq, Repr

/-- Lines 330-371: `filter_encode_write_frame`. -/
def filter_encode_write_frame (c : FilterCall) : Int :=
  if c.addRet < 0 then c.addRet else pullLoop c.pulls

/-- What the library hands back during `flush_encoder`: whether the encoder
has `CODEC_CAP_DELAY`, and the encode calls of the drain loop. -/
structure FlushCall where
  hasDelay : Bool
  calls : List EncodeCall
deriving DecidableEq, Repr

/-- Lines 382-389: the `while (1)` of `flush_encoder`. When the scripted calls
are used up the encoder is drained: the call returns 0 with `got_frame = 0`. -/
def flushLoop : List EncodeCall → Int
  | [] => 0
  | c :: rest =>
    if encode_write_frame c < 0 then encode_write_frame c
    else if c.got_frame = 0 then 0
    else flushLoop rest

/-- Lines 373-390: `flush_encoder`. -/
def flush_encoder (c : FlushCall) : Int :=
  if !c.hasDelay then 0 else flushLoop c.calls

/-- What one turn of the packet loop receives: the clock, the result of
`av_read_frame` and the stream of the packet, whether `av_frame_alloc` gave a
frame, the result of `avcodec_decode_audio4` with its `got_frame` and the
`nb_samples` of the frame, the filter call made on the frame, and the result
of `av_interleaved_write_frame` on the remux path. -/
structure Turn where
  now : Int
  readRet : Int
  packetStream : Nat
  frameAllocated : Bool
  decodeRet : Int
  got_frame : Int
  nb_samples : Int
  filter : FilterCall
  remuxRet : Int
deriving DecidableEq, Repr

/-- How the packet loop is left: by `break`, to the flush steps, or by
`goto end`; each with the value of `ret`. -/
inductive LoopExit where
  | broke (ret : Int)
  | gotoEnd (ret : Int)
deriving DecidableEq, Repr

/-- Lines 436-441: the progress report at the head of each turn. Returns the
new `oldTs` and the line printed, if any. -/
def progressStep (samples oldTs now readedSamples : Int) : Except Fault (Int × List Int) :=
  if now - oldTs > 1 then
    match cdiv (readedSamples * 100) samples with
    | .error f => .error f
    | .ok pct => .ok (now, [pct])
  else .ok (oldTs, [])

/-- Lines 435-485: the packet loop. `out` collects the progress lines. When
the scripted turns are used up, `av_read_frame` reports `AVERROR_EOF` in a
last turn whose clock reads `lastNow`. -/
def mainLoop (samples : Int) (stream_index : Nat) (hasGraph : Bool) (lastNow : Int) :
    Int → Int → List Int → List Turn → Except Fault (LoopExit × List Int)
  | oldTs, readedSamples, out, [] =>
    match progressStep samples oldTs lastNow readedSamples with
    | .error f => .error f
    | .ok (_, line) => .ok (LoopExit.broke AVERROR_EOF, out ++ line)
  | oldTs, readedSamples, out, t :: rest =>
    match progressStep samples oldTs t.now readedSamples with
    | .error f => .error f
    | .ok (oldTs1, line) =>
      if t.readRet < 0 then .ok (LoopExit.broke t.readRet, out ++ line)
      else if stream_index ≠ t.packetStream then
        mainLoop samples stream_index hasGraph lastNow oldTs1 readedSamples (out ++ line) rest
      else if hasGraph then
        if !t.frameAllocated then .ok (LoopExit.broke AVERROR_ENOMEM, out ++ line)
        else if t.decodeRet < 0 then .ok (LoopExit.broke t.decodeRet, out ++ line)
        else if t.got_frame ≠ 0 then
          if filter_encode_write_frame t.filter < 0 then
            .ok (LoopExit.gotoEnd (filter_encode_write_frame t.filter), out ++ line)
          else
            mainLoop samples stream_index hasGraph lastNow oldTs1
              (readedSamples + t.nb_samples) (out ++ line) rest
        else
          mainLoop samples stream_index hasGraph lastNow oldTs1 readedSamples (out ++ line) rest
      else if t.remuxRet < 0 then .ok (LoopExit.gotoEnd t.remuxRet, out ++ line)
      else
        mainLoop samples stream_index hasGraph lastNow oldTs1 readedSamples (out ++ line) rest

/-- Everything one run of `wfg_generateImage` receives from outside: the
results of `open_input_file`, `open_output_file` and `init_filters`, the
container duration and the sample rate and index of the selected stream,
whether `filter_ctx->filter_graph` is set, the clock at line 432, the turns of
the packet loop and the clock of its last turn, and the two flush calls. -/
structure Run where
  openInputRet : Int
  openOutputRet : Int
  ctxDuration : Int
  sampleRate : Int
  stream_index : Nat
  initFiltersRet : Int
  hasGraph : Bool
  startTime : Int
  turns : List Turn
  lastNow : Int
  flushFilter : FilterCall
  flushEncoder : FlushCall
deriving DecidableEq, Repr

/-- What a run leaves behind: the exit status, the lines on standard output
(progress values, then the duration), the final `ret`, and whether
`av_write_trailer` was reached. -/
structure Result where
  status : Int
  stdout : List Int
  ret : Int
  trailerWritten : Bool
deriving DecidableEq, Repr

/-- Lines 503-523: the `end:` label, `printf("%d\n", duration)` and
`return ret ? 1 : 0`. -/
def finish (ret duration : Int) (out : List Int) (trailerWritten : Bool) : Result :=
  { status := if ret ≠ 0 then 1 else 0, stdout := out ++ [duration], ret := ret,
    trailerWritten := trailerWritten }

/-- Lines 397-524: `wfg_generateImage`. -/
def wfg_generateImage (cfg : Config) (infile : Text) (r : Run) : Except Fault Result :=
  match initialGlobals cfg infile with
  | .error f => .error f
  | .ok _ =>
    if r.openInputRet < 0 then .ok (finish r.openInputRet 0 [] false)
    else if r.openOutputRet < 0 then .ok (finish r.openOutputRet 0 [] false)
    else
      match totalSamples r.ctxDuration r.sampleRate with
      | .error f => .error f
      | .ok samples =>
        match filterDescr cfg samples with
        | .error f => .error f
        | .ok _ =>
          if r.initFiltersRet < 0 then
            .ok (finish r.initFiltersRet (durationMs r.ctxDuration) [] false)
          else
            match mainLoop samples r.stream_index r.hasGraph r.lastNow r.startTime 0 [] r.turns with
            | .error f => .error f
            | .ok (LoopExit.gotoEnd ret, out) =>
              .ok (finish ret (durationMs r.ctxDuration) out false)
            | .ok (LoopExit.broke _, out) =>
              if filter_encode_write_frame r.flushFilter < 0 then
                .ok (finish (filter_encode_write_frame r.flushFilter)
                  (durationMs r.ctxDuration) out false)
              else if flush_encoder r.flushEncoder < 0 then
                .ok (finish (flush_encoder r.flushEncoder) (durationMs r.ctxDuration) out false)
              else
                .ok (finish (flush_encoder r.flushEncoder) (durationMs r.ctxDuration) out true)

/-! ## Notions used to state the properties of the capture state -/

/-- An input path the two name buffers can take: no `%` in it, and at most 19
bytes, so that the template fits `jsonFileNameTmpl[28]`. -/
def PlainPath (infile : Text) : Prop := '%' ∉ infile ∧ infile.length ≤ 19

/-- The file name `<infile>_<marker>.json`. -/
def tierName (infile marker : Text) : Text :=
  infile ++ "_".toList ++ marker ++ ".json".toList

/-- The number of characters the buffer initialised for a tier of width `w`
can hold: `size_max - 1` after `av_bprint_init(buffer, w*8+1, w*8+1)`. -/
def textLimit (w : Nat) : Nat := (av_bprint_init (w * 8 + 1) (w * 8 + 1)).size_max - 1

/-- The payloads of the data messages (level 49) of a sequence, in order. -/
def payloads : List Msg → List Text
  | [] => []
  | m :: ms => if m.level = 49 then m.text :: payloads ms else payloads ms

/-- The writes of a run of data payloads in the small tier, from buffer `buf`:
each payload is appended and the whole stored text is written again. -/
def smallWrites (cfg : Config) (name : Text) : AVBPrint → List Text → List (Text × Text)
  | _, [] => []
  | buf, p :: ps =>
    (name, datasetText cfg.widthSmall cfg.height (av_vbprintf buf p).str)
      :: smallWrites cfg name (av_vbprintf buf p) ps

/-- Whether the steps follow one another from `g`: each step starts in the
state the previous one ended in. -/
def chained : Globals → List Step → Bool
  | _, [] => true
  | g, s :: rest => decide (s.before = g) && chained s.after rest

/-- The text concatenated from a list of payloads. -/
def concatText : List Text → Text
  | [] => []
  | p :: ps => p ++ concatText ps

/-- The writes of a run of data payloads that starts in the large tier, from
buffer `buf`: the first payload goes to the large-tier file `nm`, the buffer is
re-initialised, and the remaining payloads go to the small-tier file `ns`. -/
def largeWrites (cfg : Config) (nm ns : Text) (buf : AVBPrint) : List Text → List (Text × Text)
  | [] => []
  | p :: ps =>
    (nm, datasetText cfg.width cfg.height (av_vbprintf buf p).str)
      :: smallWrites cfg ns
          (av_bprint_init (cfg.widthSmall * 8 + 1) (cfg.widthSmall * 8 + 1)) ps

/-- The number of writes to file `name`. -/
def writeCount (name : Text) : List (Text × Text) → Nat
  | [] => 0
  | (n, _) :: rest => (if n = name then 1 else 0) + writeCount name rest

/-- The number of steps in which the tier flag changed value. -/
def flipCount : List Step → Nat
  | [] => 0
  | s :: rest => (if s.flipped then 1 else 0) + flipCount rest

/-- The file writes of one call of the handler. -/
def handlerWrites (cfg : Config) (g : Globals) (level : Int) (payload : Text) :
    Except Fault (List (Text × Text)) :=
  match log_callback cfg g level payload with
  | .ok (_, evs) => .ok (fileWrites evs)
  | .error f => .error f

/-- The file writes of a run of the handler from state `g`, in order. -/
def runWrites (cfg : Config) (g : Globals) (msgs : List Msg) :
    Except Fault (List (Text × Text)) :=
  match runLog cfg g msgs with
  | .ok steps => .ok (fileWrites (stepsEvents steps))
  | .error f => .error f

/-- The file writes of a run of the handler from the initial capture state
that `wfg_generateImage` sets up for `infile`. -/
def sessionWrites (cfg : Config) (infile : Text) (msgs : List Msg) :
    Except Fault (List (Text × Text)) :=
  match initialGlobals cfg infile with
  | .ok g => runWrites cfg g msgs
  | .error f => .error f

/-- The data messages (level 49) carrying the given payloads. -/
def dataMsgs (ps : List Text) : List Msg := ps.map (fun p => { level := 49, text := p })

/-! ## Sample inputs -/

/-- A configuration with a full width of 1800, a small width of 300 and a
height of 140. -/
def sampleConfig : Config := { width := 1800, widthSmall := 300, height := 140 }

/-- A configuration whose buffers hold 8 characters per tier. -/
def narrowConfig : Config := { width := 1, widthSmall := 1, height := 140 }

/-- A turn of the packet loop in which every library call succeeds: a packet
of stream 0 that decodes to a frame of 1024 samples, filtered with no frame
coming out of the sink. -/
def okTurn : Turn :=
  { now := 0, readRet := 0, packetStream := 0, frameAllocated := true, decodeRet := 0,
    got_frame := 1, nb_samples := 1024, filter := { addRet := 0, pulls := [] }, remuxRet := 0 }

/-- A run of ten seconds of audio at 44100 Hz in which every library call
succeeds and no packet arrives before the end of the input. -/
def quietRun : Run :=
  { openInputRet := 0, openOutputRet := 0, ctxDuration := 10000000, sampleRate := 44100,
    stream_index := 0, initFiltersRet := 0, hasGraph := true, startTime := 0, turns := [],
    lastNow := 0, flushFilter := { addRet := 0, pulls := [] },
    flushEncoder := { hasDelay := true, calls := [] } }

/-- `AVERROR_INVALIDDATA` of libavutil, the negated tag `'I','N','D','A'`. -/
def AVERROR_INVALIDDATA : Int := -1094995529

/-! ## Lemmas on the integer set-up -/

theorem toInt32_of_range {x : Int} (h0 : -(2 ^ 31) ≤ x) (h1 : x < 2 ^ 31) :
    toInt32 x = x := by
  unfold toInt32
  omega

theorem toInt32_le_of_nonneg {x : Int} (h0 : 0 ≤ x) : toInt32 x ≤ x := by
  unfold toInt32
  omega

theorem samplesPerColumn_eq {samples : Int} {w : Nat} (hw : 0 < w) :
    samplesPerColumn samples w = .ok (toInt32 (Int.tdiv samples w)) := by
  have hne : ¬ ((w : Int) = 0) := by omega
  simp [samplesPerColumn, cdiv, hne]

theorem filterDescr_eq {cfg : Config} {samples : Int}
    (hw : 0 < cfg.width) (hws : 0 < cfg.widthSmall)
    (hfit : (filterDescrText
        { smallN := toInt32 (Int.tdiv samples cfg.widthSmall), smallW := cfg.widthSmall,
          smallH := cfg.height, largeN := toInt32 (Int.tdiv samples cfg.width),
          largeW := cfg.width, largeH := cfg.height }).length + 1 ≤ 48) :
    filterDescr cfg samples =
      .ok { smallN := toInt32 (Int.tdiv samples cfg.widthSmall), smallW := cfg.widthSmall,
            smallH := cfg.height, largeN := toInt32 (Int.tdiv samples cfg.width),
            largeW := cfg.width, largeH := cfg.height } := by
  simp only [filterDescr, samplesPerColumn_eq hw, samplesPerColumn_eq hws, hfit, if_true]

theorem tdiv_bounds {samples : Int} {w : Nat} (hs : 0 ≤ samples) (hw : 0 < w) :
    toInt32 (Int.tdiv samples w) * (w : Int) ≤ samples ∧
    (Int.tdiv samples w < 2 ^ 31 → toInt32 (Int.tdiv samples w) = Int.tdiv samples w) := by
  have hwz : (0 : Int) < (w : Int) := by exact_mod_cast hw
  have htd : Int.tdiv samples w = samples / (w : Int) :=
    Int.tdiv_eq_ediv hs (le_of_lt hwz)
  have hq0 : 0 ≤ samples / (w : Int) := Int.ediv_nonneg hs (le_of_lt hwz)
  have hmul : samples / (w : Int) * (w : Int) ≤ samples :=
    Int.ediv_mul_le samples (ne_of_gt hwz)
  rw [htd]
  constructor
  · have hle : toInt32 (samples / (w : Int)) ≤ samples / (w : Int) :=
      toInt32_le_of_nonneg hq0
    calc toInt32 (samples / (w : Int)) * (w : Int)
        ≤ samples / (w : Int) * (w : Int) := Int.mul_le_mul_of_nonneg_right hle (le_of_lt hwz)
      _ ≤ samples := hmul
  · intro hlt
    exact toInt32_of_range (by omega) hlt

/-! ## C3: samples per column -/

/-- C3, as stated, fails: a container duration of 161061273600000 microseconds
at 48000 Hz gives `totalSamples = 2^32 * 1800`; with widths 1800 and 300 and
height 140 the quotients `2^32` and `6 * 2^32` do not fit the `int` they are
stored in, the filter description (39 bytes with its NUL, inside the 48 of
`filter_descr`) passes `n = 0` to both stages, not `totalSamples / width`. -/
theorem samplesPerColumn_wraps :
    totalSamples 161061273600000 48000 = .ok 7730941132800 ∧
    filterDescr sampleConfig 7730941132800
      = .ok { smallN := 0, smallW := 300, smallH := 140,
              largeN := 0, largeW := 1800, largeH := 140 } ∧
    Int.tdiv 7730941132800 ((sampleConfig.width : Nat) : Int) = 4294967296 ∧
    Int.tdiv 7730941132800 ((sampleConfig.widthSmall : Nat) : Int) = 25769803776 ∧
    (0 : Int) ≠ Int.tdiv 7730941132800 ((sampleConfig.width : Nat) : Int) := by
  decide

/-- C3, amended: for every non-negative `totalSamples` and every configuration
with positive widths whose filter description fits the 48 bytes of
`filter_descr`, `wfg_generateImage` builds the description, the
samples-per-column value `n` it passes to each tier's stage satisfies
`n * width(tier) ≤ totalSamples`, and `n` equals the truncating quotient
`totalSamples / width(tier)` whenever that quotient fits an `int` (is below
`2^31`). -/
theorem samplesPerColumn_spec (cfg : Config) (samples : Int) (hs : 0 ≤ samples)
    (hw : 0 < cfg.width) (hws : 0 < cfg.widthSmall)
    (hfit : (filterDescrText
        { smallN := toInt32 (Int.tdiv samples cfg.widthSmall), smallW := cfg.widthSmall,
          smallH := cfg.height, largeN := toInt32 (Int.tdiv samples cfg.width),
          largeW := cfg.width, largeH := cfg.height }).length + 1 ≤ 48) :
    ∃ fd : FilterDescr, filterDescr cfg samples = .ok fd ∧
      samplesPerColumn samples cfg.width = .ok fd.largeN ∧
      samplesPerColumn samples cfg.widthSmall = .ok fd.smallN ∧
      fd.largeW = cfg.width ∧ fd.smallW = cfg.widthSmall ∧
      fd.largeH = cfg.height ∧ fd.smallH = cfg.height ∧
      fd.largeN * (cfg.width : Int) ≤ samples ∧
      fd.smallN * (cfg.widthSmall : Int) ≤ samples ∧
      (Int.tdiv samples cfg.width < 2 ^ 31 → fd.largeN = Int.tdiv samples cfg.width) ∧
      (Int.tdiv samples cfg.widthSmall < 2 ^ 31 →
        fd.smallN = Int.tdiv samples cfg.widthSmall) := by
  obtain ⟨hl1, hl2⟩ := tdiv_bounds (w := cfg.width) hs hw
  obtain ⟨hs1, hs2⟩ := tdiv_bounds (w := cfg.widthSmall) hs hws
  exact ⟨_, filterDescr_eq hw hws hfit, samplesPerColumn_eq hw, samplesPerColumn_eq hws,
    rfl, rfl, rfl, rfl, hl1, hs1, hl2, hs2⟩

/-- The amended C3 at `totalSamples = 441000` with widths 1800 and 300. -/
theorem samplesPerColumn_spec_witness :
    ∃ fd : FilterDescr, filterDescr sampleConfig 441000 = .ok fd ∧
      samplesPerColumn 441000 sampleConfig.width = .ok fd.largeN ∧
      samplesPerColumn 441000 sampleConfig.widthSmall = .ok fd.smallN ∧
      fd.largeW = sampleConfig.width ∧ fd.smallW = sampleConfig.widthSmall ∧
      fd.largeH = sampleConfig.height ∧ fd.smallH = sampleConfig.height ∧
      fd.largeN * (sampleConfig.width : Int) ≤ 441000 ∧
      fd.smallN * (sampleConfig.widthSmall : Int) ≤ 441000 ∧
      (Int.tdiv 441000 sampleConfig.width < 2 ^ 31 →
        fd.largeN = Int.tdiv 441000 sampleConfig.width) ∧
      (Int.tdiv 441000 sampleConfig.widthSmall < 2 ^ 31 →
        fd.smallN = Int.tdiv 441000 sampleConfig.widthSmall) :=
  samplesPerColumn_spec sampleConfig 441000 (by decide) (by decide) (by decide) (by decide)

/-! ## C7: total samples against the reported duration -/

/-- C7, as stated, fails: for a container duration of 999 microseconds at
48000 Hz the program reports `D = 0` ms and computes `totalSamples = 47`,
while `D * R / 1000 = 0`; the two differ by 47. -/
theorem totalSamples_far_from_ms :
    durationMs 999 = 0 ∧ totalSamples 999 48000 = .ok 47 ∧
    Int.tdiv (durationMs 999 * 48000) 1000 = 0 ∧
    ¬ (47 - Int.tdiv (durationMs 999 * 48000) 1000 ≤ 1) := by
  decide

/-- C7, amended: for a container duration of `d ≥ 0` microseconds and a sample
rate `R > 0`, with `d * R` inside `int64_t` and `d / 1000` inside `int`, the
program reports `D = d / 1000` and computes `totalSamples = d * R / 1000000`,
and `D * R / 1000 ≤ totalSamples ≤ (D + 1) * R / 1000`; the two values differ
by at most `R / 1000 + 1`, and by at most 1 when `R ≤ 1000`. -/
theorem totalSamples_spec (d R : Int) (hd : 0 ≤ d) (hR : 0 < R)
    (hprod : d * R < 2 ^ 63) (hD : d / 1000 < 2 ^ 31) :
    durationMs d = d / 1000 ∧
    totalSamples d R = .ok (d * R / 1000000) ∧
    durationMs d * R / 1000 ≤ d * R / 1000000 ∧
    d * R / 1000000 ≤ (durationMs d + 1) * R / 1000 ∧
    d * R / 1000000 - durationMs d * R / 1000 ≤ R / 1000 + 1 ∧
    (R ≤ 1000 → d * R / 1000000 - durationMs d * R / 1000 ≤ 1) := by
  have hP0 : 0 ≤ d * R := Int.mul_nonneg hd (le_of_lt hR)
  have hdur : durationMs d = d / 1000 := by
    unfold durationMs
    rw [Int.tdiv_eq_ediv hd (by decide)]
    exact toInt32_of_range (by omega) hD
  have htot : totalSamples d R = .ok (d * R / 1000000) := by
    have hfit : fitsInt64 (d * R) = true := by
      simp only [fitsInt64, Bool.and_eq_true, decide_eq_true_eq]
      exact ⟨by omega, hprod⟩
    simp only [totalSamples, hfit, if_true, AV_TIME_BASE]
    rw [Int.tdiv_eq_ediv hP0 (by decide)]
  have hlo : 1000 * (d / 1000 * R) ≤ d * R := by
    have h1 : 1000 * (d / 1000) ≤ d := by omega
    calc 1000 * (d / 1000 * R) = (1000 * (d / 1000)) * R := by ring
      _ ≤ d * R := Int.mul_le_mul_of_nonneg_right h1 (le_of_lt hR)
  have hhi : d * R ≤ 1000 * (d / 1000 * R) + 1000 * R := by
    have h1 : d ≤ 1000 * (d / 1000) + 1000 := by omega
    calc d * R ≤ (1000 * (d / 1000) + 1000) * R :=
          Int.mul_le_mul_of_nonneg_right h1 (le_of_lt hR)
      _ = 1000 * (d / 1000 * R) + 1000 * R := by ring
  have hexp : (d / 1000 + 1) * R = d / 1000 * R + R := by ring
  rw [hdur, hexp]
  refine ⟨rfl, htot, ?_, ?_, ?_, ?_⟩
  · omega
  · omega
  · omega
  · intro hR2
    omega

/-- The amended C7 at one second of audio at 44100 Hz. -/
theorem totalSamples_spec_witness :
    durationMs 1000000 = 1000000 / 1000 ∧
    totalSamples 1000000 44100 = .ok (1000000 * 44100 / 1000000) ∧
    durationMs 1000000 * 44100 / 1000 ≤ 1000000 * 44100 / 1000000 ∧
    1000000 * 44100 / 1000000 ≤ (durationMs 1000000 + 1) * 44100 / 1000 ∧
    1000000 * 44100 / 1000000 - durationMs 1000000 * 44100 / 1000 ≤ 44100 / 1000 + 1 ∧
    ((44100 : Int) ≤ 1000 → 1000000 * 44100 / 1000000 - durationMs 1000000 * 44100 / 1000 ≤ 1) :=
  totalSamples_spec 1000000 44100 (by decide) (by decide) (by decide) (by decide)

/-! ## Lemmas on the file names -/

theorem formatGo_plain (pre rest : Text) (arg : Option Text) (h : '%' ∉ pre) :
    formatGo false arg (pre ++ rest) =
      match formatGo false arg rest with
      | .ok out => .ok (pre ++ out)
      | .error f => .error f := by
  induction pre with
  | nil => cases hf : formatGo false arg rest <;> simp [hf]
  | cons c pre ih =>
    have hc : c ≠ '%' := fun e => h (by simp [e])
    have hpre : '%' ∉ pre := fun e => h (by simp [e])
    have ih2 := ih hpre
    simp only [List.cons_append, formatGo, Bool.false_eq_true, if_false, hc, List.append_eq]
    rw [ih2]
    cases hf : formatGo false arg rest <;> simp

theorem formatGo_tail (a : Text) :
    formatGo false (some a) "_%s.json".toList = .ok ("_".toList ++ a ++ ".json".toList) := by
  rfl

theorem formatGo_template (infile : Text) :
    formatGo false (some infile) "%s_%%s.json".toList = .ok (infile ++ "_%s.json".toList) := by
  rfl

theorem sprintf1_template {infile : Text} (h : PlainPath infile) :
    sprintf1 28 "%s_%%s.json".toList infile = .ok (infile ++ "_%s.json".toList) := by
  have hl := h.2
  have hlen : (infile ++ "_%s.json".toList).length + 1 ≤ 28 := by
    have h8 : "_%s.json".toList.length = 8 := by decide
    simp only [List.length_append, h8]
    omega
  simp only [sprintf1, formatGo_template, hlen, if_true]

theorem sprintf1_name {infile marker : Text} (h : PlainPath infile) (hm : marker.length ≤ 1) :
    sprintf1 32 (infile ++ "_%s.json".toList) marker = .ok (tierName infile marker) := by
  have hl := h.2
  have hlen : (infile ++ ("_".toList ++ marker ++ ".json".toList)).length + 1 ≤ 32 := by
    have h1 : "_".toList.length = 1 := by decide
    have h2 : ".json".toList.length = 5 := by decide
    simp only [List.length_append, h1, h2]
    omega
  simp only [List.append_assoc] at hlen
  simp only [sprintf1, formatGo_plain _ _ _ h.1, formatGo_tail, tierName, List.append_assoc,
    hlen, if_true]

theorem initialGlobals_eq (cfg : Config) {infile : Text} (h : PlainPath infile) :
    initialGlobals cfg infile =
      .ok { buffer := av_bprint_init (cfg.width * 8 + 1) (cfg.width * 8 + 1),
            jsonFileNameTmpl := infile ++ "_%s.json".toList, flag := 1 } := by
  simp only [initialGlobals, sprintf1_template h]

theorem tierName_m_ne_s (infile : Text) :
    tierName infile "m".toList ≠ tierName infile "s".toList := by
  intro h
  simp only [tierName, List.append_assoc] at h
  have h2 := List.append_cancel_left h
  revert h2
  decide

theorem textLimit_pos {w : Nat} (hw : 0 < w) : textLimit w = 8 * w := by
  have h : ¬ (w * 8 + 1 = 1) := by omega
  simp only [textLimit, av_bprint_init, h, if_false]
  omega

theorem take_take_append (n : Nat) (x y : Text) :
    (x.take n ++ y).take n = (x ++ y).take n := by
  rw [List.take_append_eq_append_take, List.take_append_eq_append_take, List.take_take,
    Nat.min_self, List.length_take]
  rcases Nat.le_total x.length n with h | h
  · rw [Nat.min_eq_right h]
  · rw [Nat.min_eq_left h, Nat.sub_self, Nat.sub_eq_zero_of_le h]

/-! ## Lemmas on `log_callback` -/

theorem log_callback_other (cfg : Config) (g : Globals) {level : Int} (p : Text)
    (h : level ≠ 49) : log_callback cfg g level p = .ok (g, []) := by
  simp only [log_callback, h, if_false]

theorem log_callback_large (cfg : Config) {g : Globals} {nm : Text} (p : Text)
    (hm : sprintf1 32 g.jsonFileNameTmpl "m".toList = .ok nm) (hf : g.flag ≠ 0) :
    log_callback cfg g 49 p =
      .ok ({ g with buffer := av_bprint_init (cfg.widthSmall * 8 + 1) (cfg.widthSmall * 8 + 1),
                    flag := 0 },
           [Event.fileWrite nm
              (datasetText cfg.width cfg.height (av_vbprintf g.buffer p).str),
            Event.bufferInit (cfg.widthSmall * 8 + 1) (cfg.widthSmall * 8 + 1)]) := by
  simp only [log_callback, if_true, hf, ne_eq, not_false_eq_true, hm]

theorem log_callback_small (cfg : Config) {g : Globals} {ns : Text} (p : Text)
    (hs : sprintf1 32 g.jsonFileNameTmpl "s".toList = .ok ns) (hf : g.flag = 0) :
    log_callback cfg g 49 p =
      .ok ({ g with buffer := av_vbprintf g.buffer p },
           [Event.fileWrite ns
              (datasetText cfg.widthSmall cfg.height (av_vbprintf g.buffer p).str)]) := by
  simp only [log_callback, if_true, hf, ne_eq, not_true_eq_false, if_false, hs]

/-! ## Lemmas on runs of the handler -/

theorem runLog_small (cfg : Config) (ns : Text) :
    ∀ (msgs : List Msg) (g : Globals),
      sprintf1 32 g.jsonFileNameTmpl "s".toList = .ok ns → g.flag = 0 →
      ∃ steps, runLog cfg g msgs = .ok steps ∧ steps.length = msgs.length ∧
        chained g steps = true ∧
        (∀ s ∈ steps, s.flipped = false ∧ s.didReset = false) ∧
        flipCount steps = 0 ∧
        bufferInits (stepsEvents steps) = 0 ∧
        fileWrites (stepsEvents steps)
          = smallWrites cfg ns g.buffer (payloads msgs) := by
  intro msgs
  induction msgs with
  | nil =>
    intro g _ _
    exact ⟨[], rfl, rfl, rfl, by simp, rfl, rfl, rfl⟩
  | cons m ms ih =>
    intro g ht hf
    by_cases hl : m.level = 49
    · have hcb := log_callback_small cfg m.text ht hf
      obtain ⟨steps, hrun, hlen, hch, hall, hfc, hbi, hfw⟩ :=
        ih { g with buffer := av_vbprintf g.buffer m.text } ht hf
      refine ⟨{ before := g, after := { g with buffer := av_vbprintf g.buffer m.text },
                events := [Event.fileWrite ns
                  (datasetText cfg.widthSmall cfg.height (av_vbprintf g.buffer m.text).str)] }
              :: steps, ?_, ?_, ?_, ?_, ?_, ?_, ?_⟩
      · simp only [runLog, hl, hcb, hrun]
      · simp only [List.length_cons, hlen]
      · simp only [chained, hch, decide_True, Bool.and_self]
      · intro s hs
        rcases List.mem_cons.mp hs with h | h
        · subst h
          simp [Step.flipped, Step.didReset, bufferInits]
        · exact hall s h
      · simp [flipCount, hfc, Step.flipped]
      · simp [stepsEvents, bufferInits, hbi]
      · simp [stepsEvents, fileWrites, hfw, payloads, hl, smallWrites]
    · have hcb := log_callback_other cfg g m.text hl
      obtain ⟨steps, hrun, hlen, hch, hall, hfc, hbi, hfw⟩ := ih g ht hf
      refine ⟨{ before := g, after := g, events := [] } :: steps, ?_, ?_, ?_, ?_, ?_, ?_, ?_⟩
      · simp only [runLog, hcb, hrun]
      · simp only [List.length_cons, hlen]
      · simp only [chained, hch, decide_True, Bool.and_self]
      · intro s hs
        rcases List.mem_cons.mp hs with h | h
        · subst h
          simp [Step.flipped, Step.didReset, bufferInits]
        · exact hall s h
      · simp [flipCount, hfc, Step.flipped]
      · simp [stepsEvents, hbi]
      · simp [stepsEvents, hfw, payloads, hl]

theorem runLog_large (cfg : Config) (nm ns : Text) :
    ∀ (msgs : List Msg) (g : Globals),
      sprintf1 32 g.jsonFileNameTmpl "m".toList = .ok nm →
      sprintf1 32 g.jsonFileNameTmpl "s".toList = .ok ns → g.flag ≠ 0 →
      ∃ steps, runLog cfg g msgs = .ok steps ∧ steps.length = msgs.length ∧
        chained g steps = true ∧
        (∀ s ∈ steps, s.didReset = s.flipped ∧
          (s.flipped = true → s.before.flag = g.flag ∧ s.after.flag = 0 ∧
            s.after.buffer = av_bprint_init (cfg.widthSmall * 8 + 1) (cfg.widthSmall * 8 + 1) ∧
            Event.bufferInit (cfg.widthSmall * 8 + 1) (cfg.widthSmall * 8 + 1) ∈ s.events)) ∧
        flipCount steps = (if payloads msgs = [] then 0 else 1) ∧
        bufferInits (stepsEvents steps) = (if payloads msgs = [] then 0 else 1) ∧
        fileWrites (stepsEvents steps) = largeWrites cfg nm ns g.buffer (payloads msgs) := by
  intro msgs
  induction msgs with
  | nil =>
    intro g _ _ _
    exact ⟨[], rfl, rfl, rfl, by simp, rfl, rfl, rfl⟩
  | cons m ms ih =>
    intro g ht hts hf
    by_cases hl : m.level = 49
    · have hcb := log_callback_large cfg m.text ht hf
      obtain ⟨steps, hrun, hlen, hch, hall, hfc, hbi, hfw⟩ :=
        runLog_small cfg ns ms
          { g with buffer := av_bprint_init (cfg.widthSmall * 8 + 1) (cfg.widthSmall * 8 + 1),
                   flag := 0 } hts rfl
      refine ⟨{ before := g,
                after := { g with
                  buffer := av_bprint_init (cfg.widthSmall * 8 + 1) (cfg.widthSmall * 8 + 1),
                  flag := 0 },
                events := [Event.fileWrite nm
                  (datasetText cfg.width cfg.height (av_vbprintf g.buffer m.text).str),
                  Event.bufferInit (cfg.widthSmall * 8 + 1) (cfg.widthSmall * 8 + 1)] }
              :: steps, ?_, ?_, ?_, ?_, ?_, ?_, ?_⟩
      · simp only [runLog, hl, hcb, hrun]
      · simp only [List.length_cons, hlen]
      · simp only [chained, hch, decide_True, Bool.and_self]
      · intro s hs
        rcases List.mem_cons.mp hs with h | h
        · subst h
          simp [Step.flipped, Step.didReset, bufferInits, hf]
        · have h2 := hall s h
          simp [h2.1, h2.2]
      · simp [flipCount, hfc, Step.flipped, payloads, hl, hf]
      · simp [stepsEvents, bufferInits, hbi, payloads, hl]
      · simp [stepsEvents, fileWrites, hfw, payloads, hl, largeWrites]
    · have hcb := log_callback_other cfg g m.text hl
      obtain ⟨steps, hrun, hlen, hch, hall, hfc, hbi, hfw⟩ := ih g ht hts hf
      refine ⟨{ before := g, after := g, events := [] } :: steps, ?_, ?_, ?_, ?_, ?_, ?_, ?_⟩
      · simp only [runLog, hcb, hrun]
      · simp only [List.length_cons, hlen]
      · simp only [chained, hch, decide_True, Bool.and_self]
      · intro s hs
        rcases List.mem_cons.mp hs with h | h
        · subst h
          simp [Step.flipped, Step.didReset, bufferInits]
        · exact hall s h
      · simp [flipCount, hfc, Step.flipped, payloads, hl]
      · simp [stepsEvents, hbi, payloads, hl]
      · simp [stepsEvents, hfw, payloads, hl]

/-! ## Lemmas on the writes of a run -/

theorem av_vbprintf_size_max (buf : AVBPrint) (p : Text) :
    (av_vbprintf buf p).size_max = buf.size_max := rfl

theorem av_vbprintf_str (buf : AVBPrint) (p : Text) :
    (av_vbprintf buf p).str = (buf.str ++ p).take (buf.size_max - 1) := rfl

theorem smallWrites_length (cfg : Config) (name : Text) :
    ∀ (ps : List Text) (buf : AVBPrint), (smallWrites cfg name buf ps).length = ps.length := by
  intro ps
  induction ps with
  | nil => intro buf; rfl
  | cons p ps ih => intro buf; simp [smallWrites, ih]

theorem smallWrites_writeCount (cfg : Config) (name : Text) :
    ∀ (ps : List Text) (buf : AVBPrint),
      writeCount name (smallWrites cfg name buf ps) = ps.length := by
  intro ps
  induction ps with
  | nil => intro buf; rfl
  | cons p ps ih => intro buf; simp [smallWrites, writeCount, ih]; omega

theorem smallWrites_writeCount_other (cfg : Config) {name other : Text} (h : name ≠ other) :
    ∀ (ps : List Text) (buf : AVBPrint),
      writeCount other (smallWrites cfg name buf ps) = 0 := by
  intro ps
  induction ps with
  | nil => intro buf; rfl
  | cons p ps ih => intro buf; simp [smallWrites, writeCount, ih, h]

theorem smallWrites_lastWriteIndex_other (cfg : Config) {name other : Text} (h : name ≠ other) :
    ∀ (ps : List Text) (buf : AVBPrint),
      lastWriteIndex other (smallWrites cfg name buf ps) = none := by
  intro ps
  induction ps with
  | nil => intro buf; rfl
  | cons p ps ih => intro buf; simp [smallWrites, lastWriteIndex, ih, h]

theorem smallWrites_fileContent_other (cfg : Config) {name other : Text} (h : name ≠ other) :
    ∀ (ps : List Text) (buf : AVBPrint),
      fileContent other (smallWrites cfg name buf ps) = none := by
  intro ps
  induction ps with
  | nil => intro buf; rfl
  | cons p ps ih => intro buf; simp [smallWrites, fileContent, ih, h]

theorem smallWrites_fileContent (cfg : Config) (name : Text) :
    ∀ (ps : List Text) (p : Text) (buf : AVBPrint),
      fileContent name (smallWrites cfg name buf (p :: ps)) =
        some (datasetText cfg.widthSmall cfg.height
          ((buf.str ++ concatText (p :: ps)).take (buf.size_max - 1))) := by
  intro ps
  induction ps with
  | nil =>
    intro p buf
    simp [smallWrites, fileContent, concatText, av_vbprintf_str]
  | cons q qs ih =>
    intro p buf
    have h := ih q (av_vbprintf buf p)
    rw [av_vbprintf_size_max, av_vbprintf_str, take_take_append] at h
    have e : smallWrites cfg name buf (p :: q :: qs) =
        (name, datasetText cfg.widthSmall cfg.height (av_vbprintf buf p).str)
          :: smallWrites cfg name (av_vbprintf buf p) (q :: qs) := rfl
    have e2 : concatText (p :: q :: qs) = p ++ concatText (q :: qs) := rfl
    rw [e, e2, ← List.append_assoc]
    unfold fileContent
    rw [h]

theorem payloads_dataMsgs (ps : List Text) : payloads (dataMsgs ps) = ps := by
  induction ps with
  | nil => rfl
  | cons p ps ih =>
    have h : dataMsgs (p :: ps) = { level := 49, text := p } :: dataMsgs ps := rfl
    rw [h]
    unfold dataMsgs at ih
    simp [payloads, dataMsgs, ih]

theorem tierName_m (infile : Text) :
    tierName infile "m".toList = infile ++ "_m.json".toList := by
  simp only [tierName, List.append_assoc]
  rfl

theorem tierName_s (infile : Text) :
    tierName infile "s".toList = infile ++ "_s.json".toList := by
  simp only [tierName, List.append_assoc]
  rfl

theorem specBasename_of_no_slash {path : Text} (h : '/' ∉ path) : specBasename path = path := by
  cases path with
  | nil => rfl
  | cons c rest =>
    have hc : c ≠ '/' := fun e => h (by simp [e])
    have hr : '/' ∉ rest := fun e => h (by simp [e])
    simp [specBasename, hc, hr]

theorem sessionWrites_eq (cfg : Config) {infile : Text} (hp : PlainPath infile)
    (msgs : List Msg) :
    sessionWrites cfg infile msgs =
      .ok (largeWrites cfg (tierName infile "m".toList) (tierName infile "s".toList)
        (av_bprint_init (cfg.width * 8 + 1) (cfg.width * 8 + 1)) (payloads msgs)) := by
  obtain ⟨steps, hrun, _, _, _, _, _, hfw⟩ :=
    runLog_large cfg (tierName infile "m".toList) (tierName infile "s".toList) msgs
      { buffer := av_bprint_init (cfg.width * 8 + 1) (cfg.width * 8 + 1),
        jsonFileNameTmpl := infile ++ "_%s.json".toList, flag := 1 }
      (sprintf1_name hp (by decide)) (sprintf1_name hp (by decide)) (by simp)
  simp only [sessionWrites, initialGlobals_eq cfg hp, runWrites, hrun, hfw]

theorem lastWriteIndex_after_head {mN sN : Text} (hne : mN ≠ sN) (c : Text)
    (rest : List (Text × Text)) (i : Nat)
    (h : lastWriteIndex sN ((mN, c) :: rest) = some i) : 0 < i := by
  simp only [lastWriteIndex] at h
  cases hs : lastWriteIndex sN rest with
  | none => simp [hs, hne] at h
  | some j =>
    simp only [hs, Option.some.injEq] at h
    omega

theorem handlerWrites_data (cfg : Config) (g : Globals) (infile p : Text)
    (hp : PlainPath infile) (ht : g.jsonFileNameTmpl = infile ++ "_%s.json".toList) :
    handlerWrites cfg g 49 p =
      .ok [(tierName infile (if g.flag ≠ 0 then "m".toList else "s".toList),
            datasetText (if g.flag ≠ 0 then cfg.width else cfg.widthSmall) cfg.height
              ((g.buffer.str ++ p).take (g.buffer.size_max - 1)))] := by
  have hm : sprintf1 32 g.jsonFileNameTmpl "m".toList = .ok (tierName infile "m".toList) := by
    rw [ht]; exact sprintf1_name hp (by decide)
  have hs : sprintf1 32 g.jsonFileNameTmpl "s".toList = .ok (tierName infile "s".toList) := by
    rw [ht]; exact sprintf1_name hp (by decide)
  by_cases hf : g.flag = 0
  · simp [handlerWrites, log_callback_small cfg p hs hf, fileWrites, hf, av_vbprintf_str]
  · simp [handlerWrites, log_callback_large cfg p hm hf, fileWrites, hf, av_vbprintf_str]

theorem runWrites_small (cfg : Config) {infile : Text} (hp : PlainPath infile)
    (msgs : List Msg) (g : Globals)
    (ht : g.jsonFileNameTmpl = infile ++ "_%s.json".toList) (hf : g.flag = 0) :
    runWrites cfg g msgs =
      .ok (smallWrites cfg (tierName infile "s".toList) g.buffer (payloads msgs)) := by
  have hs : sprintf1 32 g.jsonFileNameTmpl "s".toList = .ok (tierName infile "s".toList) := by
    rw [ht]; exact sprintf1_name hp (by decide)
  obtain ⟨steps, hrun, _, _, _, _, _, hfw⟩ := runLog_small cfg _ msgs g hs hf
  simp only [runWrites, hrun, hfw]

theorem runWrites_large (cfg : Config) {infile : Text} (hp : PlainPath infile)
    (msgs : List Msg) (g : Globals)
    (ht : g.jsonFileNameTmpl = infile ++ "_%s.json".toList) (hf : g.flag ≠ 0) :
    runWrites cfg g msgs =
      .ok (largeWrites cfg (tierName infile "m".toList) (tierName infile "s".toList)
        g.buffer (payloads msgs)) := by
  have hm : sprintf1 32 g.jsonFileNameTmpl "m".toList = .ok (tierName infile "m".toList) := by
    rw [ht]; exact sprintf1_name hp (by decide)
  have hs : sprintf1 32 g.jsonFileNameTmpl "s".toList = .ok (tierName infile "s".toList) := by
    rw [ht]; exact sprintf1_name hp (by decide)
  obtain ⟨steps, hrun, _, _, _, _, _, hfw⟩ := runLog_large cfg _ _ msgs g hm hs hf
  simp only [runWrites, hrun, hfw]

theorem fileContent_cons_of_some {name n c c2 : Text} {rest : List (Text × Text)}
    (h : fileContent name rest = some c2) : fileContent name ((n, c) :: rest) = some c2 := by
  simp only [fileContent, h]

theorem fileContent_cons_of_none {name c : Text} {rest : List (Text × Text)}
    (h : fileContent name rest = none) : fileContent name ((name, c) :: rest) = some c := by
  simp only [fileContent, h, if_true]

theorem largeWrites_cons (cfg : Config) (nm ns : Text) (buf : AVBPrint) (p : Text)
    (ps : List Text) :
    largeWrites cfg nm ns buf (p :: ps) =
      (nm, datasetText cfg.width cfg.height (av_vbprintf buf p).str)
        :: smallWrites cfg ns
            (av_bprint_init (cfg.widthSmall * 8 + 1) (cfg.widthSmall * 8 + 1)) ps := rfl

/-! ## C2: the dataset written for a data message -/

/-- C2, as stated, fails: with a full width of 1 the buffer holds 8
characters, and a data message with the 9-character payload `123456789` in
the initial state writes the samples text `12345678`, not the payload. -/
theorem log_callback_cuts_samples :
    handlerWrites narrowConfig
        { buffer := av_bprint_init 9 9, jsonFileNameTmpl := "a_%s.json".toList, flag := 1 }
        49 "123456789".toList
      = .ok [("a_m.json".toList, datasetText 1 140 "12345678".toList)] ∧
    datasetText 1 140 "12345678".toList ≠ datasetText 1 140 ([] ++ "123456789".toList) := by
  decide

/-- C2, amended: for every capture state (buffer text `b`, limit `size_max`,
tier flag `t`) whose name template comes from a plain input path, and every
data message (level 49) with payload `p`, `log_callback` makes exactly one
write, to the file of tier `t`, with the tier's configured width, the shared
height, and as samples the text `b` followed by `p` cut to the `size_max - 1`
characters the buffer holds; that is `b` followed by `p` itself whenever it
fits. -/
theorem log_callback_dataset (cfg : Config) (g : Globals) (infile p : Text)
    (hp : PlainPath infile) (ht : g.jsonFileNameTmpl = infile ++ "_%s.json".toList) :
    handlerWrites cfg g 49 p =
      .ok [(tierName infile (if g.flag ≠ 0 then "m".toList else "s".toList),
            datasetText (if g.flag ≠ 0 then cfg.width else cfg.widthSmall) cfg.height
              ((g.buffer.str ++ p).take (g.buffer.size_max - 1)))] ∧
    ((g.buffer.str ++ p).length ≤ g.buffer.size_max - 1 →
      handlerWrites cfg g 49 p =
        .ok [(tierName infile (if g.flag ≠ 0 then "m".toList else "s".toList),
              datasetText (if g.flag ≠ 0 then cfg.width else cfg.widthSmall) cfg.height
                (g.buffer.str ++ p))]) := by
  have main := handlerWrites_data cfg g infile p hp ht
  refine ⟨main, ?_⟩
  intro hfit
  rw [main, List.take_of_length_le hfit]

/-- The amended C2 at the initial state for `a.mp3` and the payload `1,`. -/
theorem log_callback_dataset_witness :
    handlerWrites sampleConfig
        { buffer := av_bprint_init 14401 14401, jsonFileNameTmpl := "a.mp3_%s.json".toList,
          flag := 1 } 49 "1,".toList =
      .ok [(tierName "a.mp3".toList (if (1 : Int) ≠ 0 then "m".toList else "s".toList),
            datasetText (if (1 : Int) ≠ 0 then sampleConfig.width else sampleConfig.widthSmall)
              sampleConfig.height
              (((av_bprint_init 14401 14401).str ++ "1,".toList).take
                ((av_bprint_init 14401 14401).size_max - 1)))] ∧
    (((av_bprint_init 14401 14401).str ++ "1,".toList).length
        ≤ (av_bprint_init 14401 14401).size_max - 1 →
      handlerWrites sampleConfig
          { buffer := av_bprint_init 14401 14401, jsonFileNameTmpl := "a.mp3_%s.json".toList,
            flag := 1 } 49 "1,".toList =
        .ok [(tierName "a.mp3".toList (if (1 : Int) ≠ 0 then "m".toList else "s".toList),
              datasetText (if (1 : Int) ≠ 0 then sampleConfig.width else sampleConfig.widthSmall)
                sampleConfig.height ((av_bprint_init 14401 14401).str ++ "1,".toList))]) :=
  log_callback_dataset sampleConfig
    { buffer := av_bprint_init 14401 14401, jsonFileNameTmpl := "a.mp3_%s.json".toList,
      flag := 1 } "a.mp3".toList "1,".toList ⟨by decide, by decide⟩ rfl

/-! ## C4: one flip, one reset -/

/-- C5, as stated, fails: for two data messages from the initial state the
`m` file is written first and the `s` file second, so the last write to the
small-tier file comes after the last write to the large-tier file. -/
theorem small_file_written_last :
    sessionWrites sampleConfig "a.mp3".toList
        [{ level := 49, text := "1,".toList }, { level := 49, text := "2,".toList }]
      = .ok [("a.mp3_m.json".toList, datasetText 1800 140 "1,".toList),
             ("a.mp3_s.json".toList, datasetText 300 140 "2,".toList)] ∧
    lastWriteIndex "a.mp3_s.json".toList
        [("a.mp3_m.json".toList, datasetText 1800 140 "1,".toList),
         ("a.mp3_s.json".toList, datasetText 300 140 "2,".toList)] = some 1 ∧
    lastWriteIndex "a.mp3_m.json".toList
        [("a.mp3_m.json".toList, datasetText 1800 140 "1,".toList),
         ("a.mp3_s.json".toList, datasetText 300 140 "2,".toList)] = some 0 ∧
    ¬ (1 ≤ 0) := by
  decide

/-- C5, amended: in every run of the handler from the initial capture state of
a plain input path, the large-tier file (`m`) is written at most once, by the
first data message, as the first write of all; every write to the small-tier
file (`s`) comes after it, so the last write to the small-tier file is never
before the last write to the large-tier file. -/
theorem large_file_written_first (cfg : Config) (infile : Text) (msgs : List Msg)
    (hp : PlainPath infile) :
    ∃ ws, sessionWrites cfg infile msgs = .ok ws ∧
      writeCount (infile ++ "_m.json".toList) ws ≤ 1 ∧
      (payloads msgs ≠ [] → lastWriteIndex (infile ++ "_m.json".toList) ws = some 0) ∧
      (∀ i, lastWriteIndex (infile ++ "_s.json".toList) ws = some i →
        0 < i ∧ lastWriteIndex (infile ++ "_m.json".toList) ws = some 0) := by
  refine ⟨_, sessionWrites_eq cfg hp msgs, ?_⟩
  rw [← tierName_m, ← tierName_s]
  have hne := tierName_m_ne_s infile
  cases hpl : payloads msgs with
  | nil => simp [largeWrites, writeCount, lastWriteIndex]
  | cons p ps =>
    have h1 := smallWrites_writeCount_other cfg hne.symm ps
      (av_bprint_init (cfg.widthSmall * 8 + 1) (cfg.widthSmall * 8 + 1))
    have h2 := smallWrites_lastWriteIndex_other cfg hne.symm ps
      (av_bprint_init (cfg.widthSmall * 8 + 1) (cfg.widthSmall * 8 + 1))
    have hm0 : lastWriteIndex (tierName infile "m".toList)
        (largeWrites cfg (tierName infile "m".toList) (tierName infile "s".toList)
          (av_bprint_init (cfg.width * 8 + 1) (cfg.width * 8 + 1)) (p :: ps)) = some 0 := by
      simp only [largeWrites, lastWriteIndex, h2, if_true]
    refine ⟨?_, fun _ => hm0, ?_⟩
    · simp only [largeWrites, writeCount, h1, if_true]
      omega
    · intro i hi
      exact ⟨lastWriteIndex_after_head hne _ _ i hi, hm0⟩

/-- The amended C5 for `a.mp3` and the data messages `1,` and `2,`. -/
theorem large_file_written_first_witness :
    ∃ ws, sessionWrites sampleConfig "a.mp3".toList
        [{ level := 49, text := "1,".toList }, { level := 49, text := "2,".toList }] = .ok ws ∧
      writeCount ("a.mp3".toList ++ "_m.json".toList) ws ≤ 1 ∧
      (payloads [({ level := 49, text := "1,".toList } : Msg),
          { level := 49, text := "2,".toList }] ≠ [] →
        lastWriteIndex ("a.mp3".toList ++ "_m.json".toList) ws = some 0) ∧
      (∀ i, lastWriteIndex ("a.mp3".toList ++ "_s.json".toList) ws = some i →
        0 < i ∧ lastWriteIndex ("a.mp3".toList ++ "_m.json".toList) ws = some 0) :=
  large_file_written_first sampleConfig "a.mp3".toList _ ⟨by decide, by decide⟩

/-! ## C9: names of the tier files -/

/-- C9, as stated, fails: for the input path `d/a.mp3` the large-tier file is
named `d/a.mp3_m.json`, with the directory kept, not
`basename(input)_m.json = a.mp3_m.json`. -/
theorem file_name_keeps_directory :
    initialGlobals sampleConfig "d/a.mp3".toList
      = .ok { buffer := av_bprint_init 14401 14401,
              jsonFileNameTmpl := "d/a.mp3_%s.json".toList, flag := 1 } ∧
    handlerWrites sampleConfig
        { buffer := av_bprint_init 14401 14401, jsonFileNameTmpl := "d/a.mp3_%s.json".toList,
          flag := 1 } 49 "1,".toList
      = .ok [("d/a.mp3_m.json".toList, datasetText 1800 140 "1,".toList)] ∧
    specBasename "d/a.mp3".toList ++ "_m.json".toList = "a.mp3_m.json".toList ∧
    "d/a.mp3_m.json".toList ≠ specBasename "d/a.mp3".toList ++ "_m.json".toList := by
  decide

/-- C9, amended: for every plain input path (no `%`, at most 19 bytes) passed
to `wfg_generateImage`, the file `log_callback` writes for the large tier is
named by the input path as given, directory components kept, followed by
`_m.json`, and the file it writes for the small tier by the input path
followed by `_s.json`; this is `basename(input)` followed by the suffix when
the path has no directory component. -/
theorem file_names (cfg : Config) (infile : Text) (hp : PlainPath infile) :
    ∃ g, initialGlobals cfg infile = .ok g ∧
      g.jsonFileNameTmpl = infile ++ "_%s.json".toList ∧ g.flag = 1 ∧
      (∀ (buf : AVBPrint) (p : Text), ∃ c,
        handlerWrites cfg { g with buffer := buf } 49 p
          = .ok [(infile ++ "_m.json".toList, c)]) ∧
      (∀ (buf : AVBPrint) (p : Text), ∃ c,
        handlerWrites cfg { g with buffer := buf, flag := 0 } 49 p
          = .ok [(infile ++ "_s.json".toList, c)]) ∧
      ('/' ∉ infile → specBasename infile = infile) := by
  refine ⟨_, initialGlobals_eq cfg hp, rfl, rfl, ?_, ?_, specBasename_of_no_slash⟩
  · intro buf p
    refine ⟨datasetText cfg.width cfg.height ((buf.str ++ p).take (buf.size_max - 1)), ?_⟩
    rw [← tierName_m]
    exact handlerWrites_data cfg
      { buffer := buf, jsonFileNameTmpl := infile ++ "_%s.json".toList, flag := 1 }
      infile p hp rfl
  · intro buf p
    refine ⟨datasetText cfg.widthSmall cfg.height ((buf.str ++ p).take (buf.size_max - 1)), ?_⟩
    rw [← tierName_s]
    exact handlerWrites_data cfg
      { buffer := buf, jsonFileNameTmpl := infile ++ "_%s.json".toList, flag := 0 }
      infile p hp rfl

/-- The amended C9 for the input path `d/a.mp3`. -/
theorem file_names_witness :
    ∃ g, initialGlobals sampleConfig "d/a.mp3".toList = .ok g ∧
      g.jsonFileNameTmpl = "d/a.mp3".toList ++ "_%s.json".toList ∧ g.flag = 1 ∧
      (∀ (buf : AVBPrint) (p : Text), ∃ c,
        handlerWrites sampleConfig { g with buffer := buf } 49 p
          = .ok [("d/a.mp3".toList ++ "_m.json".toList, c)]) ∧
      (∀ (buf : AVBPrint) (p : Text), ∃ c,
        handlerWrites sampleConfig { g with buffer := buf, flag := 0 } 49 p
          = .ok [("d/a.mp3".toList ++ "_s.json".toList, c)]) ∧
      ('/' ∉ "d/a.mp3".toList → specBasename "d/a.mp3".toList = "d/a.mp3".toList) :=
  file_names sampleConfig "d/a.mp3".toList ⟨by decide, by decide⟩

/-! ## C8: two data messages back to back -/

/-- C8, as stated, fails: from the initial state the data messages `1,` and
`2,` end up in different files, `1,` alone in the `m` file and `2,` alone in
the `s` file; the samples text of neither file ends with `1,2,`. -/
theorem first_two_payloads_split :
    sessionWrites sampleConfig "a.mp3".toList
        [{ level := 49, text := "1,".toList }, { level := 49, text := "2,".toList }]
      = .ok [("a.mp3_m.json".toList, "\x7b\"width\":1800,\"height\":140,\"samples\":[1,]\x7d".toList),
             ("a.mp3_s.json".toList, "\x7b\"width\":300,\"height\":140,\"samples\":[2,]\x7d".toList)] ∧
    ¬ List.IsSuffix ("1,".toList ++ "2,".toList ++ "]\x7d".toList)
        "\x7b\"width\":1800,\"height\":140,\"samples\":[1,]\x7d".toList ∧
    ¬ List.IsSuffix ("1,".toList ++ "2,".toList ++ "]\x7d".toList)
        "\x7b\"width\":300,\"height\":140,\"samples\":[2,]\x7d".toList := by
  decide

/-- C8, amended: for every capture state (buffer text `b`) whose name template
comes from a plain input path, and two data messages `p1`, `p2` handled back
to back: in the small tier both writes go to the `s` file and its final
samples text is `b`, `p1`, `p2` in that order, cut to the `size_max - 1`
characters the buffer holds, so it ends with `p1` followed by `p2` whenever
the text fits; in the large tier (as in the initial state) `p1` is written to
the `m` file after `b`, the buffer is re-initialised, and `p2` alone is
written to the `s` file. -/
theorem two_payloads_in_order (cfg : Config) (g : Globals) (infile p1 p2 : Text)
    (hp : PlainPath infile) (ht : g.jsonFileNameTmpl = infile ++ "_%s.json".toList) :
    ∃ ws, runWrites cfg g [{ level := 49, text := p1 }, { level := 49, text := p2 }] = .ok ws ∧
      (g.flag = 0 →
        writeCount (infile ++ "_s.json".toList) ws = 2 ∧
        writeCount (infile ++ "_m.json".toList) ws = 0 ∧
        fileContent (infile ++ "_s.json".toList) ws =
          some (datasetText cfg.widthSmall cfg.height
            ((g.buffer.str ++ p1 ++ p2).take (g.buffer.size_max - 1))) ∧
        ((g.buffer.str ++ p1 ++ p2).length ≤ g.buffer.size_max - 1 →
          ∃ content, fileContent (infile ++ "_s.json".toList) ws = some content ∧
            content = datasetText cfg.widthSmall cfg.height (g.buffer.str ++ p1 ++ p2) ∧
            List.IsSuffix (p1 ++ p2 ++ "]\x7d".toList) content)) ∧
      (g.flag ≠ 0 →
        ws = [(infile ++ "_m.json".toList,
                datasetText cfg.width cfg.height
                  ((g.buffer.str ++ p1).take (g.buffer.size_max - 1))),
              (infile ++ "_s.json".toList,
                datasetText cfg.widthSmall cfg.height
                  (p2.take (textLimit cfg.widthSmall)))]) := by
  have hpl : payloads [({ level := 49, text := p1 } : Msg), { level := 49, text := p2 }]
      = [p1, p2] := by simp [payloads]
  by_cases hf : g.flag = 0
  · have hrun := runWrites_small cfg hp
      [{ level := 49, text := p1 }, { level := 49, text := p2 }] g ht hf
    rw [hpl] at hrun
    refine ⟨_, hrun, ?_, fun h => absurd hf h⟩
    intro _
    rw [← tierName_m, ← tierName_s]
    have hc := smallWrites_fileContent cfg (tierName infile "s".toList) [p2] p1 g.buffer
    have hcat : g.buffer.str ++ concatText [p1, p2] = g.buffer.str ++ p1 ++ p2 := by
      simp [concatText]
    rw [hcat] at hc
    refine ⟨?_, ?_, hc, ?_⟩
    · exact smallWrites_writeCount cfg _ [p1, p2] g.buffer
    · exact smallWrites_writeCount_other cfg (tierName_m_ne_s infile).symm [p1, p2] g.buffer
    · intro hfit
      refine ⟨_, hc, by rw [List.take_of_length_le hfit], ?_⟩
      rw [List.take_of_length_le hfit]
      unfold datasetText
      simp only [List.append_assoc]
      iterate 5 apply List.IsSuffix.trans _ (List.suffix_append _ _)
      exact List.suffix_append _ _
  · have hrun := runWrites_large cfg hp
      [{ level := 49, text := p1 }, { level := 49, text := p2 }] g ht hf
    rw [hpl] at hrun
    refine ⟨_, hrun, fun h => absurd h hf, ?_⟩
    intro _
    rw [← tierName_m, ← tierName_s]
    simp [largeWrites, smallWrites, av_vbprintf_str, textLimit, av_bprint_init]

/-- The amended C8 at a small-tier state holding `1,` and the payloads `2,`
and `3,`. -/
theorem two_payloads_in_order_witness :
    ∃ ws, runWrites sampleConfig
        { buffer := { str := "1,".toList, len := 2, size_max := 2401 },
          jsonFileNameTmpl := "a.mp3_%s.json".toList, flag := 0 }
        [{ level := 49, text := "2,".toList }, { level := 49, text := "3,".toList }] = .ok ws ∧
      ((0 : Int) = 0 →
        writeCount ("a.mp3".toList ++ "_s.json".toList) ws = 2 ∧
        writeCount ("a.mp3".toList ++ "_m.json".toList) ws = 0 ∧
        fileContent ("a.mp3".toList ++ "_s.json".toList) ws =
          some (datasetText sampleConfig.widthSmall sampleConfig.height
            (("1,".toList ++ "2,".toList ++ "3,".toList).take (2401 - 1))) ∧
        (("1,".toList ++ "2,".toList ++ "3,".toList).length ≤ 2401 - 1 →
          ∃ content, fileContent ("a.mp3".toList ++ "_s.json".toList) ws = some content ∧
            content = datasetText sampleConfig.widthSmall sampleConfig.height
              ("1,".toList ++ "2,".toList ++ "3,".toList) ∧
            List.IsSuffix ("2,".toList ++ "3,".toList ++ "]\x7d".toList) content)) ∧
      ((0 : Int) ≠ 0 →
        ws = [("a.mp3".toList ++ "_m.json".toList,
                datasetText sampleConfig.width sampleConfig.height
                  (("1,".toList ++ "2,".toList).take (2401 - 1))),
              ("a.mp3".toList ++ "_s.json".toList,
                datasetText sampleConfig.widthSmall sampleConfig.height
                  ("3,".toList.take (textLimit sampleConfig.widthSmall)))]) :=
  two_payloads_in_order sampleConfig
    { buffer := { str := "1,".toList, len := 2, size_max := 2401 },
      jsonFileNameTmpl := "a.mp3_%s.json".toList, flag := 0 }
    "a.mp3".toList "2,".toList "3,".toList ⟨by decide, by decide⟩ rfl

/-! ## C10: the first payload goes to the large file, the rest to the small one -/

/-- C10, as stated, fails: with a full width of 1 the buffer holds 8
characters; after the data messages `123456789` and `ab` from the initial
state the `m` file was written once, with the samples text `12345678`, which
is not the first payload. -/
theorem first_payload_cut :
    sessionWrites narrowConfig "a".toList (dataMsgs ["123456789".toList, "ab".toList])
      = .ok [("a_m.json".toList, datasetText 1 140 "12345678".toList),
             ("a_s.json".toList, datasetText 1 140 "ab".toList)] ∧
    fileContent "a_m.json".toList
        [("a_m.json".toList, datasetText 1 140 "12345678".toList),
         ("a_s.json".toList, datasetText 1 140 "ab".toList)]
      = some (datasetText 1 140 "12345678".toList) ∧
    datasetText 1 140 "12345678".toList ≠ datasetText 1 140 "123456789".toList := by
  decide

/-- C10, amended: from the initial capture state of a plain input path, for
every non-empty sequence of data messages `p1, ..., pn`: the `m` file is
written exactly once and its samples text is `p1` cut to the characters the
large buffer holds (`p1` itself when it fits); the `s` file is written `n - 1`
times and, when `n ≥ 2`, its final samples text is `p2 ++ ... ++ pn` in
arrival order, cut to the characters the small buffer holds (the whole
concatenation when it fits). -/
theorem first_payload_large_rest_small (cfg : Config) (infile p1 : Text) (ps : List Text)
    (hp : PlainPath infile) :
    ∃ ws, sessionWrites cfg infile (dataMsgs (p1 :: ps)) = .ok ws ∧
      writeCount (infile ++ "_m.json".toList) ws = 1 ∧
      fileContent (infile ++ "_m.json".toList) ws =
        some (datasetText cfg.width cfg.height (p1.take (textLimit cfg.width))) ∧
      (p1.length ≤ textLimit cfg.width →
        fileContent (infile ++ "_m.json".toList) ws =
          some (datasetText cfg.width cfg.height p1)) ∧
      writeCount (infile ++ "_s.json".toList) ws = ps.length ∧
      (ps ≠ [] →
        fileContent (infile ++ "_s.json".toList) ws =
          some (datasetText cfg.widthSmall cfg.height
            ((concatText ps).take (textLimit cfg.widthSmall)))) ∧
      (ps ≠ [] → (concatText ps).length ≤ textLimit cfg.widthSmall →
        fileContent (infile ++ "_s.json".toList) ws =
          some (datasetText cfg.widthSmall cfg.height (concatText ps))) := by
  have hrun := sessionWrites_eq cfg hp (dataMsgs (p1 :: ps))
  rw [payloads_dataMsgs] at hrun
  refine ⟨_, hrun, ?_⟩
  rw [← tierName_m, ← tierName_s]
  have hne := tierName_m_ne_s infile
  have hw0 := smallWrites_writeCount_other cfg hne.symm ps
    (av_bprint_init (cfg.widthSmall * 8 + 1) (cfg.widthSmall * 8 + 1))
  have hc0 := smallWrites_fileContent_other cfg hne.symm ps
    (av_bprint_init (cfg.widthSmall * 8 + 1) (cfg.widthSmall * 8 + 1))
  have hws := smallWrites_writeCount cfg (tierName infile "s".toList) ps
    (av_bprint_init (cfg.widthSmall * 8 + 1) (cfg.widthSmall * 8 + 1))
  have hm : fileContent (tierName infile "m".toList)
      (largeWrites cfg (tierName infile "m".toList) (tierName infile "s".toList)
        (av_bprint_init (cfg.width * 8 + 1) (cfg.width * 8 + 1)) (p1 :: ps)) =
      some (datasetText cfg.width cfg.height (p1.take (textLimit cfg.width))) := by
    rw [largeWrites_cons, fileContent_cons_of_none hc0]
    rfl
  have hs : ps ≠ [] → fileContent (tierName infile "s".toList)
      (largeWrites cfg (tierName infile "m".toList) (tierName infile "s".toList)
        (av_bprint_init (cfg.width * 8 + 1) (cfg.width * 8 + 1)) (p1 :: ps)) =
      some (datasetText cfg.widthSmall cfg.height
        ((concatText ps).take (textLimit cfg.widthSmall))) := by
    intro hps
    cases ps with
    | nil => exact absurd rfl hps
    | cons q qs =>
      have h := smallWrites_fileContent cfg (tierName infile "s".toList) qs q
        (av_bprint_init (cfg.widthSmall * 8 + 1) (cfg.widthSmall * 8 + 1))
      rw [largeWrites_cons, fileContent_cons_of_some h]
      rfl
  refine ⟨?_, hm, ?_, ?_, hs, ?_⟩
  · simp only [largeWrites, writeCount, hw0, if_true]
  · intro hfit
    rw [hm, List.take_of_length_le hfit]
  · simp only [largeWrites, writeCount, hws, hne, if_false]
    omega
  · intro hps hfit
    rw [hs hps, List.take_of_length_le hfit]

/-- The amended C10 for `a.mp3` and the data messages `1,`, `2,`, `3,`. -/
theorem first_payload_large_rest_small_witness :
    ∃ ws, sessionWrites sampleConfig "a.mp3".toList
        (dataMsgs ("1,".toList :: ["2,".toList, "3,".toList])) = .ok ws ∧
      writeCount ("a.mp3".toList ++ "_m.json".toList) ws = 1 ∧
      fileContent ("a.mp3".toList ++ "_m.json".toList) ws =
        some (datasetText sampleConfig.width sampleConfig.height
          ("1,".toList.take (textLimit sampleConfig.width))) ∧
      ("1,".toList.length ≤ textLimit sampleConfig.width →
        fileContent ("a.mp3".toList ++ "_m.json".toList) ws =
          some (datasetText sampleConfig.width sampleConfig.height "1,".toList)) ∧
      writeCount ("a.mp3".toList ++ "_s.json".toList) ws = ["2,".toList, "3,".toList].length ∧
      (["2,".toList, "3,".toList] ≠ [] →
        fileContent ("a.mp3".toList ++ "_s.json".toList) ws =
          some (datasetText sampleConfig.widthSmall sampleConfig.height
            ((concatText ["2,".toList, "3,".toList]).take (textLimit sampleConfig.widthSmall)))) ∧
      (["2,".toList, "3,".toList] ≠ [] →
        (concatText ["2,".toList, "3,".toList]).length ≤ textLimit sampleConfig.widthSmall →
        fileContent ("a.mp3".toList ++ "_s.json".toList) ws =
          some (datasetText sampleConfig.widthSmall sampleConfig.height
            (concatText ["2,".toList, "3,".toList]))) :=
  first_payload_large_rest_small sampleConfig "a.mp3".toList "1,".toList
    ["2,".toList, "3,".toList] ⟨by decide, by decide⟩

/-! ## C1: the exit status after a decode error -/

theorem mainLoop_decode_error (samples : Int) (stream_index : Nat) (lastNow oldTs readed : Int)
    (out : List Int) (t : Turn) (rest : List Turn)
    (hnow : ¬ (t.now - oldTs > 1)) (hread : ¬ (t.readRet < 0))
    (hstream : stream_index = t.packetStream) (halloc : t.frameAllocated = true)
    (hdec : t.decodeRet < 0) :
    mainLoop samples stream_index true lastNow oldTs readed out (t :: rest)
      = .ok (LoopExit.broke t.decodeRet, out) := by
  simp [mainLoop, progressStep, hnow, hread, hstream, halloc, hdec]

theorem mainLoop_encode_error (samples : Int) (stream_index : Nat) (lastNow oldTs readed : Int)
    (out : List Int) (t : Turn) (rest : List Turn)
    (hnow : ¬ (t.now - oldTs > 1)) (hread : ¬ (t.readRet < 0))
    (hstream : stream_index = t.packetStream) (halloc : t.frameAllocated = true)
    (hdec : ¬ (t.decodeRet < 0)) (hgot : t.got_frame ≠ 0)
    (henc : filter_encode_write_frame t.filter < 0) :
    mainLoop samples stream_index true lastNow oldTs readed out (t :: rest)
      = .ok (LoopExit.gotoEnd (filter_encode_write_frame t.filter), out) := by
  simp [mainLoop, progressStep, hnow, hread, hstream, halloc, hdec, hgot, henc]

theorem finish_status_of_neg {ret : Int} (h : ret < 0) (duration : Int) (out : List Int)
    (tr : Bool) : (finish ret duration out tr).status = 1 := by
  have hne : ret ≠ 0 := by omega
  simp [finish, hne]

/-- C1 fails on the code at a decode error: the first packet of a run fails
to decode with `AVERROR_INVALIDDATA`, the loop is left by `break` with that
code, the two flush steps then succeed and overwrite `ret`, the trailer is
written and `wfg_generateImage` returns exit status 0, not 1. -/
theorem decode_error_exit_status_zero :
    mainLoop 441000 0 true 0 0 0 [] [{ okTurn with decodeRet := AVERROR_INVALIDDATA }]
      = .ok (LoopExit.broke AVERROR_INVALIDDATA, []) ∧
    wfg_generateImage sampleConfig "a.mp3".toList
        { quietRun with turns := [{ okTurn with decodeRet := AVERROR_INVALIDDATA }] }
      = .ok { status := 0, stdout := [10000], ret := 0, trailerWritten := true } := by
  decide

/-- The defect in general: whenever the packet loop is left by `break`, with
whatever code, and both flush steps return 0, the exit status is 0. -/
theorem exit_status_after_break (cfg : Config) (infile : Text) (r : Run) (g : Globals)
    (samples ret : Int) (fd : FilterDescr) (out : List Int)
    (hg : initialGlobals cfg infile = .ok g)
    (hin : ¬ (r.openInputRet < 0)) (hout : ¬ (r.openOutputRet < 0))
    (hs : totalSamples r.ctxDuration r.sampleRate = .ok samples)
    (hfd : filterDescr cfg samples = .ok fd) (hinit : ¬ (r.initFiltersRet < 0))
    (hloop : mainLoop samples r.stream_index r.hasGraph r.lastNow r.startTime 0 [] r.turns
      = .ok (LoopExit.broke ret, out))
    (hff : filter_encode_write_frame r.flushFilter = 0)
    (hfe : flush_encoder r.flushEncoder = 0) :
    wfg_generateImage cfg infile r
      = .ok { status := 0, stdout := out ++ [durationMs r.ctxDuration], ret := 0,
              trailerWritten := true } := by
  simp [wfg_generateImage, hg, hin, hout, hs, hfd, hinit, hloop, hff, hfe, finish]

/-- The sibling path: whenever the packet loop is left by `goto end` with a
negative code, as it is when encoding or muxing a filtered frame fails, the
exit status is 1 and `ret` keeps that code; the flush steps are not run. -/
theorem exit_status_after_goto_end (cfg : Config) (infile : Text) (r : Run) (g : Globals)
    (samples ret : Int) (fd : FilterDescr) (out : List Int)
    (hg : initialGlobals cfg infile = .ok g)
    (hin : ¬ (r.openInputRet < 0)) (hout : ¬ (r.openOutputRet < 0))
    (hs : totalSamples r.ctxDuration r.sampleRate = .ok samples)
    (hfd : filterDescr cfg samples = .ok fd) (hinit : ¬ (r.initFiltersRet < 0))
    (hloop : mainLoop samples r.stream_index r.hasGraph r.lastNow r.startTime 0 [] r.turns
      = .ok (LoopExit.gotoEnd ret, out))
    (hret : ret < 0) :
    wfg_generateImage cfg infile r
      = .ok { status := 1, stdout := out ++ [durationMs r.ctxDuration], ret := ret,
              trailerWritten := false } := by
  have hne : ret ≠ 0 := by omega
  simp [wfg_generateImage, hg, hin, hout, hs, hfd, hinit, hloop, finish, hne]

/-! ## C6: progress reporting with no samples -/

/-- C6 fails on the code: with a container duration of 0 the sample total is
0, and as soon as two seconds have passed since the last report the loop
evaluates `readedSamples*100/samples`, a division by zero. -/
theorem progress_divides_by_zero :
    totalSamples 0 44100 = .ok 0 ∧
    progressStep 0 0 2 1024 = .error Fault.divByZero ∧
    wfg_generateImage sampleConfig "a.mp3".toList
        { quietRun with ctxDuration := 0, turns := [okTurn, { okTurn with now := 2 }] }
      = .error Fault.divByZero := by
  decide

end Waveformgen
